import Mathlib

/-!
Verification of the storage core of dumbdb: the paged file / allocation
index / pager (src/pager.go), the pin-aware LRU page cache
(src/unnamed/part_015), and the B+ tree (src/unnamed/part_000).

Machine integers are modelled as `Nat`, with explicit `% 2 ^ w` where the
Go code can wrap.  Page data is modelled at the byte level (`Nat → Nat`,
byte index to byte value) where the claims are about the binary format,
and at the 8-byte-slot level for the B+ tree, whose code reads and writes
whole 8-byte entries.

The file is organised as definitions first (all of them translations of
the Go source), followed by the theorems.
-/

set_option autoImplicit false
set_option maxRecDepth 4000

namespace DumbDB

/-- PageID 0x00ffffff is the invalid / sentinel page id (page.go). -/
def InvalidPageID : Nat := 0x00ffffff

/-- PageSize = 4096 bytes (page.go). -/
def PageSize : Nat := 4096

/-! ### Byte-level primitives, modelling encoding/binary LittleEndian -/

/-- Store one byte at index `i` of a byte buffer. -/
def writeByte (d : Nat → Nat) (i v : Nat) : Nat → Nat :=
  fun j => if j = i then v else d j

/-- binary.LittleEndian.PutUint16: low byte first. -/
def putUint16 (d : Nat → Nat) (off v : Nat) : Nat → Nat :=
  writeByte (writeByte d off (v % 256)) (off + 1) (v / 256 % 256)

/-- binary.LittleEndian.PutUint32: four bytes, low byte first. -/
def putUint32 (d : Nat → Nat) (off v : Nat) : Nat → Nat :=
  writeByte (writeByte (writeByte (writeByte d off (v % 256))
    (off + 1) (v / 256 % 256)) (off + 2) (v / 65536 % 256)) (off + 3) (v / 16777216 % 256)

/-- binary.LittleEndian.Uint16. -/
def getUint16 (d : Nat → Nat) (off : Nat) : Nat :=
  d off + 256 * d (off + 1)

/-- binary.LittleEndian.Uint32. -/
def getUint32 (d : Nat → Nat) (off : Nat) : Nat :=
  d off + 256 * d (off + 1) + 65536 * d (off + 2) + 16777216 * d (off + 3)

/-! ### B+ tree node header (src/unnamed/part_000, readNode / writeHeader)

The header occupies bytes 0..11 of a node page: byte 0 is the leaf flag,
bytes 2..3 the slot count (uint16 LE), bytes 4..7 the prev pointer,
bytes 8..11 the next pointer (uint32 LE each).
-/

/-- The in-memory header fields of a BTreeNode view (part_000 lines 54-61),
without the page reference. -/
structure NodeHeader where
  isLeaf : Bool
  slotsTaken : Nat
  prev : Nat
  next : Nat
deriving DecidableEq, Repr

/-- BTreeNode.writeHeader (part_000 lines 82-94): stores the header fields
into the page bytes.  The prev field is written unconditionally. -/
def writeHeaderBytes (node : NodeHeader) (data : Nat → Nat) : Nat → Nat :=
  putUint32 (putUint32 (putUint16
    (writeByte data 0 (if node.isLeaf then 1 else 0))
    2 node.slotsTaken) 4 node.prev) 8 node.next

/-- readNode (part_000 lines 63-80): parses the header from the page bytes.
prev is initialised to InvalidPageID and only overwritten for leaves. -/
def readNodeBytes (data : Nat → Nat) : NodeHeader :=
  let node : NodeHeader :=
    { isLeaf := data 0 != 0
      slotsTaken := getUint16 data 2
      prev := InvalidPageID
      next := InvalidPageID }
  let node := if node.isLeaf then { node with prev := getUint32 data 4 } else node
  { node with next := getUint32 data 8 }

/-! ### LRU page cache (src/unnamed/part_015)

Pages are abstract references (`Nat`); a page's pin count lives in the
`pins` component of the state, modelling the pin counter stored in the Go
`Page` object.  The doubly linked recency list (leastUsed / recentlyUsed
with prev / next pointers) is modelled as the list of its nodes from the
LRU end to the MRU end; each node carries its id and page fields. -/

namespace LRU

/-- The LRUCache state (part_015 lines 13-20) together with the pin counts
of the pages it references. -/
structure CacheState where
  values : List (Nat × Nat)
  order : List (Nat × Nat)
  capacity : Nat
  pins : Nat → Nat

/-- Go map indexing `cache.values[id]`. -/
def mapFind : List (Nat × Nat) → Nat → Option Nat
  | [], _ => none
  | (k, v) :: rest, id => if k = id then some v else mapFind rest id

/-- Go map assignment `cache.values[id] = node`. -/
def mapSet : List (Nat × Nat) → Nat → Nat → List (Nat × Nat)
  | [], id, p => [(id, p)]
  | (k, v) :: rest, id, p => if k = id then (id, p) :: rest else (k, v) :: mapSet rest id p

/-- Go map deletion `delete(cache.values, id)`. -/
def mapDelete : List (Nat × Nat) → Nat → List (Nat × Nat)
  | [], _ => []
  | (k, v) :: rest, id => if k = id then rest else (k, v) :: mapDelete rest id

/-- detachNode (part_015 lines 66-88): unlink the node with this id from
the recency list. -/
def detachNode (order : List (Nat × Nat)) (id : Nat) : List (Nat × Nat) :=
  order.eraseP (fun n => n.1 == id)

/-- markUsed (part_015 lines 43-64): detach the node and push it to the
MRU end (a no-op detach when the node is not linked). -/
def markUsed (order : List (Nat × Nat)) (node : Nat × Nat) : List (Nat × Nat) :=
  detachNode order node.1 ++ [node]

/-- LRUCache.Get (part_015 lines 31-41): on a hit, move the node to the
MRU end, pin the page once and return it. -/
def lruGet (s : CacheState) (id : Nat) : CacheState × Option Nat :=
  match mapFind s.values id with
  | some page =>
      ({ s with order := markUsed s.order (id, page)
                pins := fun p => if p = page then s.pins p + 1 else s.pins p }, some page)
  | none => (s, none)

/-- The eviction scan in LRUCache.Put (part_015 lines 106-109): walk from
the LRU end toward the MRU end past pinned pages. -/
def findVictim (pins : Nat → Nat) : List (Nat × Nat) → Option (Nat × Nat)
  | [] => none
  | node :: rest => if pins node.2 ≠ 0 then findVictim pins rest else some node

/-- LRUCache.Put (part_015 lines 90-132).  The result is
(state, evictedID, evictedPage); `none` models the two panics
("Attempt to replace a pinned page" and "All cache pages are pinned"). -/
def lruPut (s : CacheState) (id page : Nat) : Option (CacheState × Nat × Option Nat) :=
  match mapFind s.values id with
  | some oldPage =>
      if s.pins oldPage ≠ 0 then none
      else
        some ({ s with values := mapSet s.values id page
                       order := markUsed s.order (id, page) }, id, some oldPage)
  | none =>
      if s.capacity ≤ s.values.length then
        match findVictim s.pins s.order with
        | none => none
        | some victim =>
            some ({ s with values := mapSet (mapDelete s.values victim.1) id page
                           order := detachNode s.order victim.1 ++ [(id, page)] },
              victim.1, some victim.2)
      else
        some ({ s with values := mapSet s.values id page
                       order := s.order ++ [(id, page)] }, InvalidPageID, none)

/-- LRUCache.Remove (part_015 lines 134-144): detaches the node from the
recency list and returns its page.  The `values` map entry is not deleted
(the Go source has no `delete(cache.values, id)` here). -/
def lruRemove (s : CacheState) (id : Nat) : CacheState × Option Nat :=
  match mapFind s.values id with
  | none => (s, none)
  | some page => ({ s with order := detachNode s.order id }, some page)

/-- A two-entry cache at capacity whose LRU entry (page 10) is pinned. -/
def putDemo : CacheState :=
  { values := [(1, 10), (2, 20)], order := [(1, 10), (2, 20)],
    capacity := 2, pins := fun p => if p = 10 then 1 else 0 }

/-- A one-entry cache holding page 7 under id 0, nothing pinned. -/
def removeDemo : CacheState :=
  { values := [(0, 7)], order := [(0, 7)], capacity := 1, pins := fun _ => 0 }

end LRU

/-! ### Allocation index and pager (src/pager.go, first file section)

The storage is modelled after MemoryStorage (btree_test.go): a byte
function plus a size, extended here with a counter of WriteAt calls so
that the sync claims can speak about the number of storage writes.
FetchPage and the page cache's interaction with the id-shard locks are
concurrency machinery not needed by the pager claims; the cache appears
only as the list of cached pages that SyncAll iterates over. -/

namespace Pager

/-- IndexHeaderSize and IndexMaxEntriesPerPage (pager.go lines 10-13). -/
def IndexHeaderSize : Nat := 4

/-- Maximum number of allocation-index entries: (PageSize - 4) * 8. -/
def IndexMaxEntriesPerPage : Nat := (PageSize - IndexHeaderSize) * 8

/-- A page as the pager sees it: byte contents plus the dirty flag
(page.go).  Pin counts and locks play no role in the pager claims. -/
structure Page where
  dirty : Bool
  data : Nat → Nat

/-- MemoryStorage (btree_test.go): byte contents, current size, and a
count of WriteAt calls. -/
structure Storage where
  data : Nat → Nat
  size : Nat
  writes : Nat

/-- MemoryStorage.WriteAt of `len` bytes from `buf` at offset `off`. -/
def Storage.writeAt (s : Storage) (buf : Nat → Nat) (len off : Nat) : Storage :=
  { data := fun i => if off ≤ i ∧ i < off + len then buf (i - off) else s.data i
    size := s.size
    writes := s.writes + 1 }

/-- MemoryStorage.ReadAt of `len` bytes at offset `off` into a fresh
zero-filled buffer. -/
def Storage.readAt (s : Storage) (len off : Nat) : Nat → Nat :=
  fun i => if i < len then s.data (off + i) else 0

/-- MemoryStorage.Truncate: grow (or shrink) to `newSize`, zero-filling
the extension. -/
def Storage.truncate (s : Storage) (newSize : Nat) : Storage :=
  { data := fun i => if i < s.size then s.data i else 0
    size := newSize
    writes := s.writes }

/-- The AllocationIndex (pager.go lines 15-18), keeping the Go field name. -/
structure AllocationIndex where
  nEntires : Nat
  root : Page

/-- ReadAllocationIndex (pager.go lines 20-32): read page 0 into a fresh
page and parse the entry count from its first four bytes. -/
def ReadAllocationIndex (storage : Storage) : AllocationIndex :=
  let root : Page := { dirty := false, data := storage.readAt PageSize 0 }
  { nEntires := getUint32 root.data 0, root := root }

/-- AllocationIndex.NumEntries (pager.go lines 64-66). -/
def AllocationIndex.NumEntries (index : AllocationIndex) : Nat :=
  index.nEntires

/-- AllocationIndex.GetOffset (pager.go lines 68-74). -/
def AllocationIndex.GetOffset (index : AllocationIndex) (id : Nat) : Int :=
  if id ≥ index.NumEntries then -1
  else (1 + (id : Int)) * (PageSize : Int)

/-- AllocationIndex.IsAllocated (pager.go lines 76-85). -/
def AllocationIndex.IsAllocated (index : AllocationIndex) (id : Nat) : Bool :=
  if id ≥ index.NumEntries then false
  else index.root.data (IndexHeaderSize + id / 8) &&& (1 <<< (id % 8)) != 0

/-- AllocationIndex.Allocate (pager.go lines 87-99): return the next bit
position, set the bit, bump the count, mark the root dirty; InvalidPageID
when the index page is exhausted. -/
def AllocationIndex.Allocate (index : AllocationIndex) : AllocationIndex × Nat :=
  let idx := index.NumEntries
  if idx ≥ IndexMaxEntriesPerPage then (index, InvalidPageID)
  else
    ({ nEntires := idx + 1
       root := { dirty := true
                 data := writeByte index.root.data (IndexHeaderSize + idx / 8)
                   (index.root.data (IndexHeaderSize + idx / 8) |||
                     (1 <<< (idx % 8))) } },
     idx)

/-- Error values of pager.go lines 130-134, plus an injected I/O failure. -/
inductive PagerErr
  | InvalidStorageSize
  | NoFreePages
  | PageNotAllocated
  | IOFail
deriving DecidableEq, Repr

/-- AllocationIndex.SyncPages (pager.go lines 50-61): if the root is
dirty, store the entry count into its header bytes and write the page at
offset 0.  `werr` injects the result of storage.WriteAt.  Note the source
marks the root clean only when the write FAILS (`if err != nil`). -/
def AllocationIndex.SyncPages (index : AllocationIndex) (storage : Storage)
    (werr : Bool) : AllocationIndex × Storage × Except PagerErr Unit :=
  if index.root.dirty = false then (index, storage, .ok ())
  else
    let root : Page := { index.root with data := putUint32 index.root.data 0 index.nEntires }
    let storage := storage.writeAt root.data PageSize 0
    if werr then ({ index with root := { root with dirty := false } }, storage, .error .IOFail)
    else ({ index with root := root }, storage, .ok ())

/-- The pager state (pager.go lines 137-144): storage, its cached size,
the allocation index, and the cached pages in the order ForEach visits
them (most recently used first). -/
structure PagerState where
  storage : Storage
  storageSize : Nat
  index : AllocationIndex
  cache : List (Nat × Page)

/-- Pager.ensureSize (pager.go lines 303-316). -/
def PagerState.ensureSize (pager : PagerState) (requiredSize : Nat) : PagerState :=
  if pager.storageSize ≥ requiredSize then pager
  else
    { pager with storage := pager.storage.truncate requiredSize
                 storageSize := requiredSize }

/-- NewPager (pager.go lines 147-176): check the storage size, grow the
file to at least one page, read the allocation index from page 0. -/
def NewPager (storage : Storage) : Except PagerErr PagerState :=
  let storageSize := storage.size
  if storageSize % PageSize ≠ 0 then .error .InvalidStorageSize
  else
    let pager : PagerState :=
      { storage := storage, storageSize := storageSize,
        index := { nEntires := 0, root := { dirty := false, data := fun _ => 0 } },
        cache := [] }
    let pager := pager.ensureSize PageSize
    .ok { pager with index := ReadAllocationIndex pager.storage }

/-- Pager.AllocatePage (pager.go lines 217-230): ask the index for a new
id, then extend the file to cover the new page's offset. -/
def PagerState.AllocatePage (pager : PagerState) : PagerState × Except PagerErr Nat :=
  let r := pager.index.Allocate
  let pager := { pager with index := r.1 }
  if r.2 = InvalidPageID then (pager, .error .NoFreePages)
  else
    let offset := (pager.index.GetOffset r.2).toNat
    (pager.ensureSize (offset + PageSize), .ok r.2)

/-- Pager.SyncPage (pager.go lines 233-249) together with writePage
(lines 357-368): nothing to do for a clean page; otherwise write the
page's bytes at its offset and mark it clean. -/
def PagerState.SyncPage (pager : PagerState) (id : Nat) (page : Page) :
    PagerState × Page × Except PagerErr Unit :=
  if page.dirty = false then (pager, page, .ok ())
  else
    let offset := pager.index.GetOffset id
    if offset = -1 then (pager, page, .error .PageNotAllocated)
    else
      let storage := pager.storage.writeAt page.data PageSize offset.toNat
      ({ pager with storage := storage }, { page with dirty := false }, .ok ())

/-- Pager.SyncMetadata (pager.go lines 252-257). -/
def PagerState.SyncMetadata (pager : PagerState) (werr : Bool) :
    PagerState × Except PagerErr Unit :=
  let r := pager.index.SyncPages pager.storage werr
  ({ pager with index := r.1, storage := r.2.1 }, r.2.2)

/-- The ForEach loop body of Pager.SyncAll (pager.go lines 266-271):
sync each cached page in turn, stopping at the first error. -/
def syncEach (pager : PagerState) : List (Nat × Page) →
    PagerState × List (Nat × Page) × Except PagerErr Unit
  | [] => (pager, [], .ok ())
  | (id, page) :: rest =>
      let r := pager.SyncPage id page
      match r.2.2 with
      | .error e => (r.1, (id, r.2.1) :: rest, .error e)
      | .ok _ =>
          let q := syncEach r.1 rest
          (q.1, (id, r.2.1) :: q.2.1, q.2.2)

/-- Pager.SyncAll (pager.go lines 260-274): flush the index, then every
cached page. -/
def PagerState.SyncAll (pager : PagerState) (werr : Bool) :
    PagerState × Except PagerErr Unit :=
  let m := pager.SyncMetadata werr
  match m.2 with
  | .error e => (m.1, .error e)
  | .ok _ =>
      let q := syncEach m.1 m.1.cache
      ({ q.1 with cache := q.2.1 }, q.2.2)

/-- Pager.NextPage (pager.go lines 282-291); the id increment wraps at
32 bits (PageID is uint32). -/
def PagerState.NextPage (pager : PagerState) (id : Nat) : Nat :=
  let next := (id + 1) % 2 ^ 32
  if pager.index.IsAllocated next then next else InvalidPageID

/-- Pager.FirstPage (pager.go lines 277-280): scan from uint32(-1) + 1. -/
def PagerState.FirstPage (pager : PagerState) : Nat :=
  pager.NextPage (2 ^ 32 - 1)

/-- An empty in-memory storage. -/
def emptyStorage : Storage :=
  { data := fun _ => 0, size := 0, writes := 0 }

/-- A placeholder pager used to unwrap NewPager's result in the concrete
scenarios (NewPager succeeds there, so it is never reached). -/
def dummyPager : PagerState :=
  { storage := emptyStorage, storageSize := 0,
    index := { nEntires := 0, root := { dirty := false, data := fun _ => 0 } },
    cache := [] }

/-- Unwrap an Except with a fallback. -/
def okOr (d : PagerState) : Except PagerErr PagerState → PagerState
  | .ok p => p
  | .error _ => d

/-- Allocate `n` pages in sequence. -/
def allocN : PagerState → Nat → PagerState
  | pager, 0 => pager
  | pager, n + 1 => allocN (pager.AllocatePage).1 n

/-- Scenario S3, step 1: a pager over fresh empty storage. -/
def s3open : PagerState := okOr dummyPager (NewPager emptyStorage)

/-- Scenario S3, step 2: allocate 10 pages. -/
def s3alloc : PagerState := allocN s3open 10

/-- Scenario S3, step 3: sync everything (all writes succeed). -/
def s3sync : PagerState := (s3alloc.SyncAll false).1

/-- Scenario S3, step 4: reopen the pager on the same storage. -/
def s3reopen : PagerState := okOr dummyPager (NewPager s3sync.storage)

/-- A pager with one allocated page, synced once: the starting point for
the double-SyncAll claim. -/
def c5once : PagerState := ((allocN s3open 1).SyncAll false).1

end Pager

/-! ### B+ tree (src/unnamed/part_000)

Node pages are modelled at the 8-byte-slot level: every entry access in
the source reads or writes one whole 8-byte record (two little-endian
uint32 fields), so a page is its 12-byte header plus an array of slots.
The pager is modelled in the regime where the cache never evicts (every
FetchPage returns the one live copy of the page), which is the regime the
tree code itself assumes (see the FIXME at part_000 line 471).  Views
(`BTreeNode`) carry header fields that are only persisted into the page
by writeHeader, exactly as in the source; Go pointer aliasing of path
entries is reproduced by threading updated views explicitly. -/

namespace BT

/-- NodeHeaderSize = 2 + 2 + 4 + 4 (part_000 lines 38-45). -/
def NodeHeaderSize : Nat := 12

/-- BranchNodeCap = (PageSize - NodeHeaderSize) / 8 = 510 (part_000 50). -/
def BranchNodeCap : Nat := (PageSize - NodeHeaderSize) / 8

/-- LeafNodeCap = (PageSize - NodeHeaderSize) / 8 = 510 (part_000 51). -/
def LeafNodeCap : Nat := (PageSize - NodeHeaderSize) / 8

/-- A node page: the parsed header fields and the payload slots. -/
structure NodePage where
  hIsLeaf : Bool
  hSlots : Nat
  hPrev : Nat
  hNext : Nat
  slots : List (Nat × Nat)
deriving Repr

/-- A zero-filled page, as FetchPage yields it for a freshly allocated
page (the file is grown zero-filled). -/
def zeroPage : NodePage :=
  { hIsLeaf := false, hSlots := 0, hPrev := 0, hNext := 0,
    slots := List.replicate LeafNodeCap (0, 0) }

/-- The BTreeNode view (part_000 lines 54-61): header fields plus the id
of the page it points at (modelling the `page *Page` pointer). -/
structure BTreeNode where
  isLeaf : Bool
  slotsTaken : Nat
  prev : Nat
  next : Nat
  pageID : Nat
deriving DecidableEq, Repr

/-- The pager as the tree sees it: a heap of node pages indexed by page
id, plus the allocation counter.  FetchPage(id) is the heap lookup at id;
AllocatePage returns the counter. -/
structure DB where
  pages : Nat → NodePage
  nextID : Nat

/-- Replace the page stored under `id`. -/
def DB.setPage (db : DB) (id : Nat) (p : NodePage) : DB :=
  { db with pages := fun i => if i = id then p else db.pages i }

/-- readNode (part_000 lines 63-80): build a view of the page under `id`;
prev is InvalidPageID unless the node is a leaf. -/
def readNodeV (db : DB) (id : Nat) : BTreeNode :=
  let p := db.pages id
  { isLeaf := p.hIsLeaf
    slotsTaken := p.hSlots
    prev := if p.hIsLeaf then p.hPrev else InvalidPageID
    next := p.hNext
    pageID := id }

/-- BTreeNode.writeHeader (part_000 lines 82-94): persist the view's
header fields into its page; the slots are untouched. -/
def writeHeaderV (db : DB) (node : BTreeNode) : DB :=
  let p := db.pages node.pageID
  db.setPage node.pageID
    { p with hIsLeaf := node.isLeaf, hSlots := node.slotsTaken,
             hPrev := node.prev, hNext := node.next }

/-- getLeaf / getBranch (part_000 lines 117-123 and 190-196): read the
slot at `idx` of the node's page.  (The Go int expression `len() - 1` is
evaluated with Nat truncation here; every call site in the claims has a
positive length.) -/
def getSlot (db : DB) (node : BTreeNode) (idx : Nat) : Nat × Nat :=
  ((db.pages node.pageID).slots).getD idx (0, 0)

/-- The live entries of a node: the first slotsTaken slots of its page. -/
def liveSlots (db : DB) (node : BTreeNode) : List (Nat × Nat) :=
  ((db.pages node.pageID).slots).take node.slotsTaken

/-- Keys of an entry list are non-decreasing (the tree invariant P2 the
claims assume for a leaf). -/
def keysSorted : List (Nat × Nat) → Bool
  | [] => true
  | [_] => true
  | a :: b :: rest => a.1 ≤ b.1 && keysSorted (b :: rest)

/-- The scan loop of searchBranch / searchLeaf (part_000 lines 126-135 and
178-187): number of leading entries whose key is strictly below `key`. -/
def lowerIdx (key : Nat) : List (Nat × Nat) → Nat
  | [] => 0
  | (k, _) :: rest => if key ≤ k then 0 else 1 + lowerIdx key rest

/-- The scan loop of insertBranch / insertLeaf (part_000 lines 151-163 and
201-212): number of leading entries whose key is at most `key`. -/
def upperIdx (key : Nat) : List (Nat × Nat) → Nat
  | [] => 0
  | (k, _) :: rest => if k > key then 0 else 1 + upperIdx key rest

/-- searchBranch (part_000 lines 126-135): the first position whose key
covers `key` with its child id, else (len, node.next). -/
def searchBranchS (db : DB) (node : BTreeNode) (key : Nat) : Nat × Nat :=
  let idx := lowerIdx key (liveSlots db node)
  if idx < node.slotsTaken then (idx, (getSlot db node idx).2)
  else (node.slotsTaken, node.next)

/-- searchLeaf (part_000 lines 178-187): the first position whose key is
at least `key` with its value, else (len, 0). -/
def searchLeafS (db : DB) (node : BTreeNode) (key : Nat) : Nat × Nat :=
  let idx := lowerIdx key (liveSlots db node)
  if idx < node.slotsTaken then (idx, (getSlot db node idx).2)
  else (node.slotsTaken, 0)

/-- The slot move shared by insertLeaf and insertBranchAt: shift the live
entries [idx, len) one slot right and write the new entry at idx; the
slots past len + 1 keep their contents. -/
def spliceIn (slots : List (Nat × Nat)) (idx len : Nat) (kv : Nat × Nat) :
    List (Nat × Nat) :=
  slots.take idx ++ kv :: ((slots.drop idx).take (len - idx)) ++ slots.drop (len + 1)

/-- The slot move of removeBranchAt (part_000 lines 168-175): shift the
entries [idx + 1, len + 1) one slot left (the slot at len, one past the
live range, is copied too, exactly as the byte count in the source). -/
def spliceOut (slots : List (Nat × Nat)) (idx len : Nat) : List (Nat × Nat) :=
  slots.take idx ++ ((slots.drop (idx + 1)).take (len - idx)) ++ slots.drop len

/-- insertLeaf (part_000 lines 200-222): find the position after all keys
at most `key`, splice the entry in, bump the view's slot count. -/
def insertLeafS (db : DB) (node : BTreeNode) (key value : Nat) :
    DB × BTreeNode × Nat :=
  let idx := upperIdx key (liveSlots db node)
  let p := db.pages node.pageID
  let db := db.setPage node.pageID
    { p with slots := spliceIn p.slots idx node.slotsTaken (key, value) }
  (db, { node with slotsTaken := node.slotsTaken + 1 }, idx)

/-- insertBranchAt (part_000 lines 138-148). -/
def insertBranchAtS (db : DB) (node : BTreeNode) (idx key id : Nat) :
    DB × BTreeNode :=
  let p := db.pages node.pageID
  let db := db.setPage node.pageID
    { p with slots := spliceIn p.slots idx node.slotsTaken (key, id) }
  (db, { node with slotsTaken := node.slotsTaken + 1 })

/-- insertBranch (part_000 lines 151-166). -/
def insertBranchS (db : DB) (node : BTreeNode) (key id : Nat) : DB × BTreeNode :=
  insertBranchAtS db node (upperIdx key (liveSlots db node)) key id

/-- removeBranchAt (part_000 lines 168-175). -/
def removeBranchAtS (db : DB) (node : BTreeNode) (idx : Nat) : DB × BTreeNode :=
  let p := db.pages node.pageID
  let db := db.setPage node.pageID
    { p with slots := spliceOut p.slots idx node.slotsTaken }
  (db, { node with slotsTaken := node.slotsTaken - 1 })

/-- BTreeNode.truncate (part_000 lines 100-106): only the view's count
changes, and only downward. -/
def truncateV (node : BTreeNode) (n : Nat) : BTreeNode :=
  if n ≥ node.slotsTaken then node else { node with slotsTaken := n }

/-- copyLeafFrom / copyBranchFrom (part_000 lines 225-237): copy slots
[lo, hi) of `src` to the front of `dst`; the rest of `dst` keeps its
contents; dst's view count becomes hi - lo. -/
def copyFromS (db : DB) (dst src : BTreeNode) (lo hi : Nat) : DB × BTreeNode :=
  let s := (db.pages src.pageID).slots
  let d := db.pages dst.pageID
  let db := db.setPage dst.pageID
    { d with slots := (s.drop lo).take (hi - lo) ++ d.slots.drop (hi - lo) }
  (db, { dst with slotsTaken := hi - lo })

/-- BTree.allocateNode (part_000 lines 299-320): take a fresh id, build a
view with empty count and invalid neighbours, write its header. -/
def allocateNode (db : DB) (isLeaf : Bool) : DB × Nat × BTreeNode :=
  let id := db.nextID
  let node : BTreeNode :=
    { isLeaf := isLeaf, slotsTaken := 0, prev := InvalidPageID,
      next := InvalidPageID, pageID := id }
  let db := { db with nextID := id + 1 }
  let db := writeHeaderV db node
  (db, id, node)

/-- The in-memory tree (part_000 lines 29-33). -/
structure Tree where
  rootID : Nat
  root : BTreeNode
deriving Repr

/-- NewBTree (part_000 lines 253-297): allocate the root and both initial
leaves; root gets entry (0, leftID) and next = rightID; the leaves are
linked to each other. -/
def NewBTreeS (db : DB) : DB × Tree :=
  let rootID := db.nextID
  let db := { db with nextID := rootID + 1 }
  let root : BTreeNode :=
    { isLeaf := false, slotsTaken := 0, prev := InvalidPageID,
      next := InvalidPageID, pageID := rootID }
  let a := allocateNode db true
  let leftID := a.2.1
  let b := allocateNode a.1 true
  let rightID := b.2.1
  let c := insertBranchS b.1 root 0 leftID
  let root := { c.2 with next := rightID }
  let left := { a.2.2 with next := rightID }
  let right := { b.2.2 with prev := leftID }
  let db := writeHeaderV c.1 left
  let db := writeHeaderV db right
  let db := writeHeaderV db root
  (db, { rootID := rootID, root := root })

/-- BTree.splitNode (part_000 lines 324-349).  Returns
(db, mid, newID, newNode, node): the updated heap, the separator key, the
new page's id and view, and the updated view of the split node. -/
def splitNodeS (db : DB) (node : BTreeNode) :
    DB × Nat × Nat × BTreeNode × BTreeNode :=
  let a := allocateNode db node.isLeaf
  let db := a.1
  let newID := a.2.1
  let newNode := a.2.2
  let len := node.slotsTaken
  if node.isLeaf then
    let mid := (getSlot db node (len / 2 - 1)).1
    let c := copyFromS db newNode node (len / 2) len
    let node := truncateV node (len / 2)
    (c.1, mid, newID, c.2, node)
  else
    let kv := getSlot db node (len / 2)
    let c := copyFromS db newNode node (len / 2 + 1) len
    let newNode := { c.2 with next := node.next }
    let node := truncateV { node with next := kv.2 } (len / 2)
    (c.1, kv.1, newID, newNode, node)

/-- getMaxKey (part_000 lines 351-366): walk the rightmost pointers down
to a leaf and return its last key; `fuel` bounds the walk (the source
loops forever on a cyclic chain). -/
def getMaxKeyS (db : DB) : Nat → BTreeNode → Option Nat
  | 0, _ => none
  | fuel + 1, node =>
      if node.isLeaf then some (getSlot db node (node.slotsTaken - 1)).1
      else getMaxKeyS db fuel (readNodeV db node.next)

/-- BTree.insertLeafOverflow (part_000 lines 446-498).  Returns the
updated heap and the final views of `node` and `parent` (the new leaf's
view is local to the call, its header is persisted). -/
def insertLeafOverflowS (db : DB) (node parent : BTreeNode) (key value : Nat) :
    DB × BTreeNode × BTreeNode :=
  let s := splitNodeS db node
  let db := s.1
  let mid := s.2.1
  let newLeafID := s.2.2.1
  let newLeaf := s.2.2.2.1
  let node := s.2.2.2.2
  let r :=
    if key < mid then
      let i := insertLeafS db node key value
      (i.1, i.2.1, newLeaf)
    else
      let i := insertLeafS db newLeaf key value
      (i.1, node, i.2.1)
  let db := r.1
  let node := r.2.1
  let newLeaf := r.2.2
  let sb := searchBranchS db parent key
  let idx := sb.1
  let nodeID := sb.2
  let isRightmost := idx = parent.slotsTaken
  let d := if isRightmost then (db, parent) else removeBranchAtS db parent idx
  let db := d.1
  let parent := d.2
  let newLeaf := { newLeaf with next := node.next, prev := nodeID }
  let node := { node with next := newLeafID }
  let db :=
    if newLeaf.next ≠ InvalidPageID then
      let nextNode := readNodeV db newLeaf.next
      writeHeaderV db { nextNode with prev := newLeafID }
    else db
  let e := insertBranchS db parent mid nodeID
  let db := e.1
  let parent := e.2
  let f :=
    if isRightmost then (db, { parent with next := newLeafID })
    else
      let maxLeafKey := (getSlot db newLeaf (newLeaf.slotsTaken - 1)).1
      insertBranchS db parent maxLeafKey newLeafID
  let db := f.1
  let parent := f.2
  let db := writeHeaderV db parent
  let db := writeHeaderV db node
  let db := writeHeaderV db newLeaf
  (db, node, parent)

/-- BTree.splitBranch (part_000 lines 369-444), on the reversed path
(deepest node first; the Go slice path[:depth] reversed), so that the
recursive call on path[:depth-1] is the tail.  Returns
(db, tree, rpath, mid, right): the updated heap and tree, the path with
the views the Go pointers would now show (path[0], the tree root, is the
last element), the separator and the new right node's view.  `fuel`
bounds getMaxKey walks; `none` models its exhaustion and the panics. -/
def splitBranchR (db : DB) (tree : Tree) (fuel : Nat) :
    List BTreeNode → Nat → Option (DB × Tree × List BTreeNode × Nat × BTreeNode)
  | [], _ => none
  | [left], _ =>
      let a := allocateNode db false
      let db := a.1
      let parentID := a.2.1
      let parent := a.2.2
      let s := splitNodeS db left
      let db := s.1
      let mid := s.2.1
      let rightID := s.2.2.1
      let right := s.2.2.2.1
      let left := s.2.2.2.2
      let parent := { parent with next := rightID }
      let e := insertBranchS db parent mid tree.rootID
      let db := e.1
      let parent := e.2
      let db := writeHeaderV db parent
      let db := writeHeaderV db left
      let db := writeHeaderV db right
      some (db, { rootID := parentID, root := parent }, [parent], mid, right)
  | left :: parent :: rest, key =>
      let step :
          Option (DB × Tree × List BTreeNode × BTreeNode × Bool) :=
        if parent.slotsTaken = BranchNodeCap then
          match splitBranchR db tree fuel (parent :: rest) key with
          | none => none
          | some (db, tree, rpath2, parentMid, parentRhs) =>
              if key > parentMid then
                some (db, tree, rpath2, parentRhs, true)
              else
                some (db, tree, rpath2, rpath2.headD parent, false)
        else
          some (db, tree, parent :: rest, parent, false)
      match step with
      | none => none
      | some (db, tree, rpath2, parent, parentIsLocal) =>
          let s := splitNodeS db left
          let db := s.1
          let mid := s.2.1
          let rightID := s.2.2.1
          let right := s.2.2.2.1
          let left := s.2.2.2.2
          let sb := searchBranchS db parent key
          let idx := sb.1
          let leftID := sb.2
          let isRightmost := idx = parent.slotsTaken
          let d := if isRightmost then (db, parent) else removeBranchAtS db parent idx
          let db := d.1
          let parent := d.2
          let e := insertBranchS db parent mid leftID
          let db := e.1
          let parent := e.2
          match
            (if isRightmost then
              some (db, { parent with next := rightID })
            else
              match getMaxKeyS db fuel right with
              | none => none
              | some maxKey => some (insertBranchS db parent maxKey rightID)) with
          | none => none
          | some (db, parent) =>
              let db := writeHeaderV db parent
              let db := writeHeaderV db left
              let db := writeHeaderV db right
              let rpath3 :=
                if parentIsLocal then rpath2 else parent :: rpath2.tail
              some (db, tree, left :: rpath3, mid, right)

/-- BTree.insertSlow (part_000 lines 500-519), on the reversed path. -/
def insertSlowS (db : DB) (tree : Tree) (fuel : Nat)
    (rpath : List BTreeNode) (key value : Nat) : Option (DB × Tree) :=
  match rpath with
  | node :: parent :: rest =>
      let step :
          Option (DB × Tree × List BTreeNode × BTreeNode × Bool) :=
        if parent.slotsTaken = BranchNodeCap then
          match splitBranchR db tree fuel (parent :: rest) key with
          | none => none
          | some (db, tree, rpath2, mid, rhs) =>
              if key > mid then some (db, tree, rpath2, rhs, true)
              else some (db, tree, rpath2, rpath2.headD parent, false)
        else
          some (db, tree, parent :: rest, parent, false)
      match step with
      | none => none
      | some (db, tree, rpath2, parent, parentIsLocal) =>
          let o := insertLeafOverflowS db node parent key value
          let db := o.1
          let parent := o.2.2
          let rpath3 :=
            if parentIsLocal then o.2.1 :: rpath2
            else o.2.1 :: parent :: rpath2.tail
          -- the object behind path[0] is tree.root; its final value is
          -- the last element of the updated path
          some (db, { tree with root := rpath3.getLastD tree.root })
  | _ => none

/-- The descent loop of BTree.Insert (part_000 lines 530-568); `fuel` is
the remaining capacity of the 12-entry path array.  The current node is
the head of `rpath`. -/
def insertWalk (db : DB) (tree : Tree) (key value : Nat) :
    Nat → BTreeNode → List BTreeNode → Option (DB × Tree)
  | fuel, node, rpath =>
      if node.isLeaf then
        if node.slotsTaken < LeafNodeCap then
          let i := insertLeafS db node key value
          let db := writeHeaderV i.1 i.2.1
          let rpath2 := i.2.1 :: rpath.tail
          some (db, { tree with root := rpath2.getLastD tree.root })
        else
          insertSlowS db tree 24 rpath key value
      else
        match fuel with
        | 0 => none
        | fuel + 1 =>
            let sb := searchBranchS db node key
            if sb.2 = InvalidPageID then none
            else
              let child := readNodeV db sb.2
              insertWalk db tree key value fuel child (child :: rpath)

/-- BTree.Insert (part_000 lines 530-568): start the descent at the root
(path[0] = &tree.root); `none` models the panics and path overflow. -/
def InsertS (db : DB) (tree : Tree) (key value : Nat) : Option (DB × Tree) :=
  insertWalk db tree key value 11 tree.root [tree.root]

/-- The cursor (part_000 lines 571-578) without the lock and error
fields: fetches cannot fail in the no-eviction pager model. -/
structure CursorS where
  idx : Nat
  node : BTreeNode
deriving DecidableEq, Repr

/-- Cursor.Forward (part_000 lines 580-602). -/
def ForwardS (db : DB) (c : CursorS) : CursorS × Bool :=
  let idx := c.idx + 1
  if idx ≥ c.node.slotsTaken then
    if c.node.next = InvalidPageID then ({ c with idx := idx }, false)
    else ({ idx := 0, node := readNodeV db c.node.next }, true)
  else ({ c with idx := idx }, true)

/-- Cursor.Get (part_000 lines 604-606). -/
def GetS (db : DB) (c : CursorS) : Nat × Nat :=
  getSlot db c.node c.idx

/-- The descent loop of BTree.Search (part_000 lines 618-652); `fuel`
bounds the depth, `none` models the "no valid branch" panic. -/
def searchWalk (db : DB) (key : Nat) : Nat → BTreeNode → Option CursorS
  | 0, _ => none
  | fuel + 1, node =>
      if node.isLeaf then
        let r := searchLeafS db node key
        some { idx := r.1, node := node }
      else
        let sb := searchBranchS db node key
        if sb.2 = InvalidPageID then none
        else searchWalk db key fuel (readNodeV db sb.2)

/-- BTree.Search (part_000 lines 618-652). -/
def SearchS (db : DB) (tree : Tree) (key : Nat) (fuel : Nat) : Option CursorS :=
  searchWalk db key fuel tree.root

/-- The empty heap: every page zero-filled, no page allocated yet. -/
def emptyDB : DB := { pages := fun _ => zeroPage, nextID := 0 }

/-- A fresh tree over the empty heap (NewBTree on a new pager). -/
def freshTree : DB × Tree := NewBTreeS emptyDB

/-- Two successive inserts of the identical pair (5, 7) into a fresh
tree (both on the fast path into the initial right leaf). -/
def dupDemo : Option (DB × Tree) :=
  match InsertS freshTree.1 freshTree.2 5 7 with
  | none => none
  | some st => InsertS st.1 st.2 5 7

/-- A full branch page (all-zero entries, rightmost pointer 7) for the
branch-split witness. -/
def c3page : NodePage :=
  { hIsLeaf := false, hSlots := 510, hPrev := 0, hNext := 7,
    slots := List.replicate 510 (0, 0) }

/-- A heap holding the full branch page under id 0. -/
def c3db : DB :=
  { pages := fun i => if i = 0 then c3page else zeroPage, nextID := 1 }

/-- The view of the full branch node on page 0. -/
def c3node : BTreeNode :=
  { isLeaf := false, slotsTaken := BranchNodeCap, prev := InvalidPageID,
    next := 7, pageID := 0 }

/-- A full leaf page (every entry (5, 9)) for the leaf-split witness. -/
def c2leafPage : NodePage :=
  { hIsLeaf := true, hSlots := 510, hPrev := InvalidPageID, hNext := InvalidPageID,
    slots := List.replicate 510 (5, 9) }

/-- A one-entry branch page serving as the parent in the witness. -/
def c2parentPage : NodePage :=
  { hIsLeaf := false, hSlots := 1, hPrev := InvalidPageID, hNext := 0,
    slots := (100, 0) :: List.replicate 509 (0, 0) }

/-- A heap holding the full leaf under id 0 and its parent under id 1. -/
def c2db : DB :=
  { pages := fun i => if i = 0 then c2leafPage else if i = 1 then c2parentPage else zeroPage,
    nextID := 2 }

/-- The view of the full leaf on page 0. -/
def c2node : BTreeNode :=
  { isLeaf := true, slotsTaken := LeafNodeCap, prev := InvalidPageID,
    next := InvalidPageID, pageID := 0 }

/-- The view of the parent branch on page 1. -/
def c2parent : BTreeNode :=
  { isLeaf := false, slotsTaken := 1, prev := InvalidPageID, next := 0, pageID := 1 }

end BT

end DumbDB

/-! ## Theorems -/

namespace DumbDB

/-- C10: node header round-trip.  After writeHeader stores a node's header
into the page bytes, readNode recovers isLeaf, slotsTaken and next exactly;
prev is recovered for leaf nodes, while for branch nodes readNode always
yields prev = InvalidPageID regardless of the bytes written there. -/
theorem claim_C10_header_roundtrip (node : NodeHeader) (data : Nat → Nat)
    (hs : node.slotsTaken < 2 ^ 16) (hp : node.prev < 2 ^ 32) (hn : node.next < 2 ^ 32) :
    readNodeBytes (writeHeaderBytes node data) =
      { node with prev := if node.isLeaf then node.prev else InvalidPageID } := by
  have e256 : (2 : Nat) ^ 16 = 65536 := by norm_num
  have e32 : (2 : Nat) ^ 32 = 4294967296 := by norm_num
  rw [e256] at hs
  rw [e32] at hp hn
  cases node with
  | mk isLeaf slotsTaken prev next =>
    simp only at hs hp hn
    cases isLeaf <;>
      · simp only [readNodeBytes, writeHeaderBytes, putUint16, putUint32, getUint16,
          getUint32, writeByte]
        norm_num
        omega

/-- Witness for C10 at a concrete header and page. -/
theorem claim_C10_header_roundtrip_witness :
    readNodeBytes (writeHeaderBytes
        { isLeaf := false, slotsTaken := 3, prev := 77, next := 12 } (fun _ => 0)) =
      { isLeaf := false, slotsTaken := 3, prev := InvalidPageID, next := 12 } := by
  have h := claim_C10_header_roundtrip
    { isLeaf := false, slotsTaken := 3, prev := 77, next := 12 } (fun _ => 0)
    (by norm_num) (by norm_num) (by norm_num)
  simpa using h

namespace LRU

theorem findVictim_some (pins : Nat → Nat) (l : List (Nat × Nat)) (v : Nat × Nat)
    (h : findVictim pins l = some v) :
    ∃ pre post, l = pre ++ v :: post ∧ (∀ n ∈ pre, pins n.2 ≠ 0) ∧ pins v.2 = 0 := by
  induction l with
  | nil => simp [findVictim] at h
  | cons node rest ih =>
    by_cases hpin : pins node.2 ≠ 0
    · simp only [findVictim, if_pos hpin] at h
      obtain ⟨pre, post, hl, hpre, hv⟩ := ih h
      exact ⟨node :: pre, post, by simp [hl], by simpa [hpin] using hpre, hv⟩
    · simp only [findVictim, if_neg hpin] at h
      cases h
      exact ⟨[], rest, rfl, by simp, by omega⟩

theorem findVictim_none (pins : Nat → Nat) (l : List (Nat × Nat)) :
    findVictim pins l = none ↔ ∀ n ∈ l, pins n.2 ≠ 0 := by
  induction l with
  | nil => simp [findVictim]
  | cons node rest ih =>
    by_cases hpin : pins node.2 ≠ 0
    · simp [findVictim, if_pos hpin, ih, hpin]
    · simp [findVictim, if_neg hpin, hpin]

/-- C4: when Put must evict (id not cached, cache at capacity), the victim
is the least recently used entry whose page has pin count zero: every
entry closer to the LRU end than the victim is pinned, and the victim is
unpinned, so a pinned page is never evicted.  If every entry is pinned,
Put panics (modelled as `none`) instead of evicting. -/
theorem claim_C4_put_evicts_first_unpinned (s : CacheState) (id page : Nat)
    (hid : mapFind s.values id = none)
    (hfull : s.capacity ≤ s.values.length) :
    (∀ st vid vp, lruPut s id page = some (st, vid, vp) →
        ∃ pre vpage post, vp = some vpage ∧
          s.order = pre ++ (vid, vpage) :: post ∧
          (∀ n ∈ pre, s.pins n.2 ≠ 0) ∧ s.pins vpage = 0)
    ∧ (lruPut s id page = none ↔ ∀ n ∈ s.order, s.pins n.2 ≠ 0) := by
  constructor
  · intro st vid vp h
    rw [lruPut, hid] at h
    simp only [if_pos hfull] at h
    cases hv : findVictim s.pins s.order with
    | none => rw [hv] at h; cases h
    | some victim =>
      rw [hv] at h
      obtain ⟨pre, post, hl, hpre, hzero⟩ := findVictim_some s.pins s.order victim hv
      cases h
      exact ⟨pre, victim.2, post, rfl, hl, hpre, hzero⟩
  · rw [lruPut, hid]
    simp only [if_pos hfull]
    cases hv : findVictim s.pins s.order with
    | none => simpa [hv] using (findVictim_none s.pins s.order).mp hv
    | some victim =>
      simp only [hv]
      constructor
      · intro h; cases h
      · intro hall
        exact absurd hv (by simp [(findVictim_none s.pins s.order).mpr hall])

/-- Witness for C4: Put must evict at `putDemo` and the conclusion holds. -/
theorem claim_C4_put_evicts_first_unpinned_witness :
    (mapFind putDemo.values 3 = none ∧ putDemo.capacity ≤ putDemo.values.length) ∧
    ((∀ st vid vp, lruPut putDemo 3 30 = some (st, vid, vp) →
        ∃ pre vpage post, vp = some vpage ∧
          putDemo.order = pre ++ (vid, vpage) :: post ∧
          (∀ n ∈ pre, putDemo.pins n.2 ≠ 0) ∧ putDemo.pins vpage = 0)
      ∧ (lruPut putDemo 3 30 = none ↔ ∀ n ∈ putDemo.order, putDemo.pins n.2 ≠ 0)) :=
  ⟨⟨by decide, by decide⟩,
    claim_C4_put_evicts_first_unpinned putDemo 3 30 (by decide) (by decide)⟩

/-- C9 (code bug): Remove(0) on a cache containing page 7 under id 0
returns the page, but because Remove does not delete the `values` map
entry, a subsequent Get(0) still returns the page instead of none. -/
theorem claim_C9_remove_leaves_map_entry :
    (lruRemove removeDemo 0).2 = some 7 ∧
    (lruGet (lruRemove removeDemo 0).1 0).2 = some 7 := by
  constructor
  · rfl
  · rfl

/-- General form of the C9 divergence: whenever id is present, Remove
returns the stored page but leaves the `values` map entry behind, so the
following Get still returns the page instead of missing. -/
theorem lruRemove_keeps_map_entry (s : CacheState) (id page : Nat)
    (h : mapFind s.values id = some page) :
    (lruRemove s id).2 = some page ∧
    (lruGet (lruRemove s id).1 id).2 = some page := by
  simp [lruRemove, h, lruGet]

/-- Remove on an absent id returns none and leaves the cache unchanged. -/
theorem lruRemove_absent (s : CacheState) (id : Nat)
    (h : mapFind s.values id = none) :
    lruRemove s id = (s, none) := by
  simp [lruRemove, h]

end LRU

namespace Pager

theorem allocate_at_capacity (index : AllocationIndex)
    (h : IndexMaxEntriesPerPage ≤ index.nEntires) :
    index.Allocate = (index, InvalidPageID) := by
  rw [AllocationIndex.Allocate, AllocationIndex.NumEntries, if_pos h]

theorem allocate_below_capacity (index : AllocationIndex)
    (h : ¬ IndexMaxEntriesPerPage ≤ index.nEntires) :
    (index.Allocate).2 = index.nEntires := by
  rw [AllocationIndex.Allocate, AllocationIndex.NumEntries, if_neg h]

/-- C8: AllocatePage fails with NoFreePages exactly when the allocation
count has reached IndexMaxEntriesPerPage = (4096 - 4) * 8 = 32736, and on
that error the whole pager state — allocation-index entry count, bitmap
and storage — is left unchanged. -/
theorem claim_C8_allocate_exhaustion (pager : PagerState) :
    ((pager.AllocatePage).2 = .error .NoFreePages ↔
      IndexMaxEntriesPerPage ≤ pager.index.nEntires)
    ∧ IndexMaxEntriesPerPage = 32736
    ∧ ((pager.AllocatePage).2 = .error .NoFreePages → (pager.AllocatePage).1 = pager) := by
  by_cases h : IndexMaxEntriesPerPage ≤ pager.index.nEntires
  · have halloc := allocate_at_capacity pager.index h
    refine ⟨?_, by decide, ?_⟩
    · rw [PagerState.AllocatePage, halloc]
      simp [h]
    · intro _
      rw [PagerState.AllocatePage, halloc]
      simp
  · have halloc := allocate_below_capacity pager.index h
    have hne : (pager.index.Allocate).2 ≠ InvalidPageID := by
      rw [halloc]
      rw [IndexMaxEntriesPerPage, IndexHeaderSize, PageSize] at h
      rw [InvalidPageID]
      omega
    refine ⟨?_, by decide, ?_⟩
    · rw [PagerState.AllocatePage]
      simp [hne, h]
    · intro hc
      rw [PagerState.AllocatePage] at hc
      simp [hne] at hc

/-- C6 counterexample: after allocating 10 pages, syncing and reopening,
FirstPage() yields page id 0, not 1 — allocation hands out ids starting
at 0 (the allocation index lives at file offset 0 but occupies no id;
user page 0 is stored at file offset PageSize). -/
theorem claim_C6_first_page_is_zero :
    s3reopen.FirstPage = 0 ∧ ¬ s3reopen.FirstPage = 1 := by
  constructor
  · decide
  · decide

/-- C6 amended: after allocating 10 pages, syncing and reopening,
FirstPage() yields 0, successive NextPage calls yield 1 through 9 and
then the invalid id; allocation returns ids starting at 0 (the very first
AllocatePage returns id 0). -/
theorem claim_C6_page_id_sequence :
    s3reopen.FirstPage = 0 ∧
    (List.range 10).map s3reopen.NextPage =
      [1, 2, 3, 4, 5, 6, 7, 8, 9, InvalidPageID] ∧
    (s3open.AllocatePage).2 = .ok 0 := by
  refine ⟨by decide, by decide, by rfl⟩

/-- C5 (code bug): AllocationIndex.SyncPages marks the index root clean
only when the write fails, so after a first successful SyncAll the root
page is still dirty and a second SyncAll writes page 0 to storage again
(one more storage write) instead of finding nothing to write. -/
theorem claim_C5_second_syncall_writes_again :
    ((allocN s3open 1).SyncAll false).2 = .ok () ∧
    c5once.index.root.dirty = true ∧
    (c5once.SyncAll false).2 = .ok () ∧
    (c5once.SyncAll false).1.storage.writes = c5once.storage.writes + 1 := by
  refine ⟨by rfl, by decide, by rfl, by decide⟩

theorem syncPage_index_eq (pager : PagerState) (id : Nat) (page : Page) :
    (pager.SyncPage id page).1.index = pager.index := by
  rw [PagerState.SyncPage]
  split
  · rfl
  · dsimp only
    split
    · rfl
    · rfl

theorem syncPage_writes_le (pager : PagerState) (id : Nat) (page : Page) :
    pager.storage.writes ≤ (pager.SyncPage id page).1.storage.writes := by
  rw [PagerState.SyncPage]
  split
  · exact le_refl _
  · dsimp only
    split
    · exact le_refl _
    · simp [Storage.writeAt]

theorem syncEach_index_eq (l : List (Nat × Page)) (pager : PagerState) :
    (syncEach pager l).1.index = pager.index := by
  induction l generalizing pager with
  | nil => rfl
  | cons hd tl ih =>
    obtain ⟨id, page⟩ := hd
    rw [syncEach]
    rcases hres : (pager.SyncPage id page).2.2 with e | u
    · simp only [hres]
      exact syncPage_index_eq pager id page
    · simp only [hres]
      rw [ih]
      exact syncPage_index_eq pager id page

theorem syncEach_writes_le (l : List (Nat × Page)) (pager : PagerState) :
    pager.storage.writes ≤ (syncEach pager l).1.storage.writes := by
  induction l generalizing pager with
  | nil => exact le_refl _
  | cons hd tl ih =>
    obtain ⟨id, page⟩ := hd
    rw [syncEach]
    rcases hres : (pager.SyncPage id page).2.2 with e | u
    · simp only [hres]
      exact syncPage_writes_le pager id page
    · simp only [hres]
      exact le_trans (syncPage_writes_le pager id page) (ih _)

theorem syncMetadata_dirty (pager : PagerState)
    (hd : pager.index.root.dirty = true) :
    (pager.SyncMetadata false).1.index.root.dirty = true ∧
    (pager.SyncMetadata false).1.storage.writes = pager.storage.writes + 1 ∧
    (pager.SyncMetadata false).2 = .ok () := by
  simp [PagerState.SyncMetadata, AllocationIndex.SyncPages, hd, Storage.writeAt]

/-- General form of the C5 divergence: whenever the allocation-index root
page is dirty (as after any successful AllocatePage), a SyncAll with no
I/O failure succeeds yet leaves the root dirty, and the next SyncAll
performs at least one further storage write. -/
theorem syncAll_dirty_root_persists (pager : PagerState)
    (hd : pager.index.root.dirty = true) :
    (pager.SyncAll false).1.index.root.dirty = true ∧
    (pager.SyncAll false).1.storage.writes <
      ((pager.SyncAll false).1.SyncAll false).1.storage.writes := by
  obtain ⟨hdirty1, hw1, hok1⟩ := syncMetadata_dirty pager hd
  have hfirst :
      (pager.SyncAll false).1.index.root.dirty = true := by
    rw [PagerState.SyncAll, hok1]
    dsimp only
    rw [syncEach_index_eq]
    exact hdirty1
  refine ⟨hfirst, ?_⟩
  set p1 := (pager.SyncAll false).1 with hp1
  obtain ⟨hdirty2, hw2, hok2⟩ := syncMetadata_dirty p1 hfirst
  rw [PagerState.SyncAll, hok2]
  dsimp only
  calc p1.storage.writes
      < (p1.SyncMetadata false).1.storage.writes := by omega
    _ ≤ _ := syncEach_writes_le _ _

end Pager

namespace BT

theorem setPage_ne (db : DB) (id id' : Nat) (p : NodePage) (h : id' ≠ id) :
    (db.setPage id p).pages id' = db.pages id' := by
  simp [DB.setPage, h]

theorem setPage_same (db : DB) (id : Nat) (p : NodePage) :
    (db.setPage id p).pages id = p := by
  simp [DB.setPage]

theorem writeHeaderV_slots (db : DB) (m : BTreeNode) (id : Nat) :
    ((writeHeaderV db m).pages id).slots = (db.pages id).slots := by
  by_cases h : id = m.pageID
  · subst h
    simp [writeHeaderV, setPage_same]
  · simp [writeHeaderV, setPage_ne _ _ _ _ h]

theorem liveSlots_writeHeaderV (db : DB) (m n : BTreeNode) :
    liveSlots (writeHeaderV db m) n = liveSlots db n := by
  simp [liveSlots, writeHeaderV_slots]

theorem writeHeaderV_pages_ne (db : DB) (m : BTreeNode) (id : Nat) (h : id ≠ m.pageID) :
    (writeHeaderV db m).pages id = db.pages id := by
  simp [writeHeaderV, setPage_ne _ _ _ _ h]

theorem insertBranchAtS_pages_ne (db : DB) (p : BTreeNode) (i k v : Nat) (id : Nat)
    (h : id ≠ p.pageID) :
    (insertBranchAtS db p i k v).1.pages id = db.pages id := by
  simp [insertBranchAtS, setPage_ne _ _ _ _ h]

theorem insertBranchS_pages_ne (db : DB) (p : BTreeNode) (k v : Nat) (id : Nat)
    (h : id ≠ p.pageID) :
    (insertBranchS db p k v).1.pages id = db.pages id := by
  simp [insertBranchS, insertBranchAtS_pages_ne _ _ _ _ _ _ h]

theorem removeBranchAtS_pages_ne (db : DB) (p : BTreeNode) (i : Nat) (id : Nat)
    (h : id ≠ p.pageID) :
    (removeBranchAtS db p i).1.pages id = db.pages id := by
  simp [removeBranchAtS, setPage_ne _ _ _ _ h]

theorem insertLeafS_pages_ne (db : DB) (n : BTreeNode) (k v : Nat) (id : Nat)
    (h : id ≠ n.pageID) :
    (insertLeafS db n k v).1.pages id = db.pages id := by
  simp [insertLeafS, setPage_ne _ _ _ _ h]

theorem insertLeafS_view (db : DB) (n : BTreeNode) (k v : Nat) :
    (insertLeafS db n k v).2.1 = { n with slotsTaken := n.slotsTaken + 1 } := rfl

theorem insertBranchS_view (db : DB) (p : BTreeNode) (k v : Nat) :
    (insertBranchS db p k v).2 = { p with slotsTaken := p.slotsTaken + 1 } := rfl

theorem removeBranchAtS_view (db : DB) (p : BTreeNode) (i : Nat) :
    (removeBranchAtS db p i).2 = { p with slotsTaken := p.slotsTaken - 1 } := rfl

theorem upperIdx_le_length (key : Nat) (l : List (Nat × Nat)) :
    upperIdx key l ≤ l.length := by
  induction l with
  | nil => simp [upperIdx]
  | cons a rest ih =>
    obtain ⟨k, v⟩ := a
    by_cases h : k > key
    · simp [upperIdx, h]
    · simp only [upperIdx, if_neg h, List.length_cons]
      omega

theorem spliceIn_take (s : List (Nat × Nat)) (idx len : Nat) (kv : Nat × Nat)
    (hi : idx ≤ len) (hl : len ≤ s.length) :
    (spliceIn s idx len kv).take (len + 1) =
      (s.take len).take idx ++ kv :: (s.take len).drop idx := by
  have h1 : (s.take idx).length = idx := by
    rw [List.length_take]
    omega
  have h2 : ((s.drop idx).take (len - idx)).length = len - idx := by
    rw [List.length_take, List.length_drop]
    omega
  rw [spliceIn]
  have h3 : len + 1 ≤ (s.take idx ++ kv :: (s.drop idx).take (len - idx)).length := by
    rw [List.length_append, h1, List.length_cons, h2]
    omega
  rw [List.take_append_of_le_length h3]
  rw [List.take_of_length_le (by rw [List.length_append, h1, List.length_cons, h2]; omega)]
  rw [List.take_take, Nat.min_eq_left hi, List.drop_take]

theorem insertLeafS_live (db : DB) (n : BTreeNode) (k v : Nat)
    (hle : n.slotsTaken ≤ ((db.pages n.pageID).slots).length) :
    liveSlots (insertLeafS db n k v).1 (insertLeafS db n k v).2.1 =
      (liveSlots db n).take (upperIdx k (liveSlots db n)) ++
        (k, v) :: (liveSlots db n).drop (upperIdx k (liveSlots db n)) := by
  have hidx : upperIdx k (liveSlots db n) ≤ n.slotsTaken :=
    le_trans (upperIdx_le_length k (liveSlots db n))
      (by rw [liveSlots, List.length_take]; omega)
  simp only [insertLeafS, liveSlots, setPage_same]
  exact spliceIn_take _ _ _ _ hidx hle

theorem splitNode_leaf_spec (db : DB) (node : BTreeNode)
    (hleaf : node.isLeaf = true)
    (hfull : node.slotsTaken = LeafNodeCap)
    (hnode : node.pageID < db.nextID) :
    ∀ db2 mid newID newNode node2,
      splitNodeS db node = (db2, mid, newID, newNode, node2) →
      mid = (((db.pages node.pageID).slots).getD (LeafNodeCap / 2 - 1) (0, 0)).1 ∧
      newID = db.nextID ∧
      newNode = { isLeaf := true, slotsTaken := LeafNodeCap - LeafNodeCap / 2,
                  prev := InvalidPageID, next := InvalidPageID, pageID := db.nextID } ∧
      node2 = { node with slotsTaken := LeafNodeCap / 2 } ∧
      (∀ id, id ≠ db.nextID → db2.pages id = db.pages id) ∧
      (db2.pages db.nextID).slots =
        ((db.pages node.pageID).slots.drop (LeafNodeCap / 2)).take
            (LeafNodeCap - LeafNodeCap / 2) ++
          (db.pages db.nextID).slots.drop (LeafNodeCap - LeafNodeCap / 2) := by
  intro db2 mid newID newNode node2 h
  have hne : node.pageID ≠ db.nextID := Nat.ne_of_lt hnode
  have hcap : LeafNodeCap = 510 := rfl
  rw [hcap] at hfull ⊢
  simp only [splitNodeS, allocateNode, copyFromS, writeHeaderV, DB.setPage,
    getSlot, truncateV, hleaf, if_true, ite_true, hne, hfull] at h
  norm_num at h
  obtain ⟨hdb, hmid, hnewID, hnn, hn2⟩ := h
  subst hdb hmid hnewID hnn hn2
  refine ⟨by simp [List.getD], rfl, rfl, ?_, ?_, ?_⟩
  · simp [hleaf]
  · intro id hid
    simp [hid]
  · simp


theorem claim_C2_leaf_split_routing (db : DB) (node parent : BTreeNode) (key value : Nat)
    (hleaf : node.isLeaf = true)
    (hfull : node.slotsTaken = LeafNodeCap)
    (hsorted : keysSorted (liveSlots db node) = true)
    (hpb : parent.isLeaf = false)
    (hnode : node.pageID < db.nextID)
    (hparent : parent.pageID < db.nextID)
    (hnp : parent.pageID ≠ node.pageID)
    (hlen : ((db.pages node.pageID).slots).length = LeafNodeCap) :
    ∀ db2 node2 parent2,
      insertLeafOverflowS db node parent key value = (db2, node2, parent2) →
      ∀ mid lhalf rhalf,
        mid = ((liveSlots db node).getD (LeafNodeCap / 2 - 1) (0, 0)).1 →
        lhalf = (liveSlots db node).take (LeafNodeCap / 2) →
        rhalf = (liveSlots db node).drop (LeafNodeCap / 2) →
        (db2.pages db.nextID).hIsLeaf = true ∧
        (key < mid →
          node2.slotsTaken = LeafNodeCap / 2 + 1 ∧
          liveSlots db2 node2 =
            lhalf.take (upperIdx key lhalf) ++ (key, value) :: lhalf.drop (upperIdx key lhalf) ∧
          (db2.pages db.nextID).hSlots = LeafNodeCap - LeafNodeCap / 2 ∧
          (db2.pages db.nextID).slots.take (LeafNodeCap - LeafNodeCap / 2) = rhalf) ∧
        (¬ key < mid →
          node2.slotsTaken = LeafNodeCap / 2 ∧
          liveSlots db2 node2 = lhalf ∧
          (db2.pages db.nextID).hSlots = (LeafNodeCap - LeafNodeCap / 2) + 1 ∧
          (db2.pages db.nextID).slots.take ((LeafNodeCap - LeafNodeCap / 2) + 1) =
            rhalf.take (upperIdx key rhalf) ++ (key, value) :: rhalf.drop (upperIdx key rhalf)) := by
  intro db2 node2 parent2 h mid lhalf rhalf hmid hlh hrh
  have hne2 : node.pageID ≠ db.nextID := Nat.ne_of_lt hnode
  have hpne2 : parent.pageID ≠ db.nextID := Nat.ne_of_lt hparent
  have hs : (db.pages node.pageID).slots.take LeafNodeCap = (db.pages node.pageID).slots := by
    rw [← hlen]
    exact List.take_length ..
  have hlive : liveSlots db node = (db.pages node.pageID).slots := by
    rw [liveSlots, hfull, hs]
  simp only [insertLeafOverflowS] at h
  rcases hsp : splitNodeS db node with ⟨dbA, midA, newIDA, newLeafA, nodeA⟩
  rw [hsp] at h
  obtain ⟨hmidA, hnewIDA, hnewLeafA, hnodeA, hpresA, hslotsA⟩ :=
    splitNode_leaf_spec db node hleaf hfull hnode dbA midA newIDA newLeafA nodeA hsp
  dsimp only at h
  have hmidmid : mid = midA := by
    rw [hmid, hmidA, hlive]
  have hnApage : nodeA.pageID = node.pageID := by rw [hnodeA]
  have hnAslots : nodeA.slotsTaken = LeafNodeCap / 2 := by rw [hnodeA]
  have hnLpage : newLeafA.pageID = db.nextID := by rw [hnewLeafA]
  have hnLslots : newLeafA.slotsTaken = LeafNodeCap - LeafNodeCap / 2 := by rw [hnewLeafA]
  have hnLleaf : newLeafA.isLeaf = true := by rw [hnewLeafA]
  have hdbApage : dbA.pages node.pageID = db.pages node.pageID := hpresA _ hne2
  have hliveA : liveSlots dbA nodeA = lhalf := by
    rw [liveSlots, hnApage, hnAslots, hdbApage, hlh, hlive]
  have hliveL : liveSlots dbA newLeafA = rhalf := by
    rw [liveSlots, hnLpage, hnLslots, hslotsA, hrh, hlive]
    rw [List.take_append_of_le_length]
    · rw [List.take_take, Nat.min_self]
      exact List.take_of_length_le (by rw [List.length_drop, hlen])
    · rw [List.length_take, List.length_drop, hlen]
      simp
  have htakeNew : ((dbA.pages db.nextID).slots).take (LeafNodeCap - LeafNodeCap / 2) = rhalf := by
    have t := hliveL
    rw [liveSlots, hnLslots, hnLpage] at t
    exact t
  have hid1 : db.nextID ≠ parent.pageID := Ne.symm hpne2
  have hid2 : node.pageID ≠ parent.pageID := Ne.symm hnp
  have hid3 : db.nextID ≠ node.pageID := Ne.symm hne2
  by_cases hk : key < midA
  · simp only [if_pos hk] at h
    rcases hI : insertLeafS dbA nodeA key value with ⟨dbB, nodeB, idxB⟩
    rw [hI] at h
    dsimp only at h
    have hnB : nodeB = { nodeA with slotsTaken := nodeA.slotsTaken + 1 } := by
      have t := insertLeafS_view dbA nodeA key value
      rw [hI] at t
      exact t
    have hlB : liveSlots dbB nodeB =
        lhalf.take (upperIdx key lhalf) ++ (key, value) :: lhalf.drop (upperIdx key lhalf) := by
      have t := insertLeafS_live dbA nodeA key value
        (by rw [hnApage, hdbApage, hlen, hnAslots]; exact Nat.div_le_self _ _)
      rw [hI] at t
      dsimp only at t
      rw [hliveA] at t
      exact t
    have hBnew : dbB.pages db.nextID = dbA.pages db.nextID := by
      have t := insertLeafS_pages_ne dbA nodeA key value db.nextID (by rw [hnApage]; exact hid3)
      rw [hI] at t
      exact t
    have hnBpage : nodeB.pageID = node.pageID := by rw [hnB]; exact hnApage
    have hnBslots : nodeB.slotsTaken = LeafNodeCap / 2 + 1 := by rw [hnB]; simp [hnAslots]
    split at h <;> split at h <;>
      (simp only [Prod.mk.injEq] at h
       obtain ⟨hdb2, hnode2, hparent2⟩ := h
       subst hdb2 hnode2 hparent2
       refine ⟨?_, fun _ => ⟨?_, ?_, ?_, ?_⟩,
         fun hk2 => absurd (hmidmid ▸ hk) hk2⟩ <;>
         (simp [liveSlots_writeHeaderV, writeHeaderV_slots, writeHeaderV, DB.setPage,
           liveSlots, insertBranchS_pages_ne, removeBranchAtS_pages_ne,
           insertBranchS_view, removeBranchAtS_view, readNodeV,
           hid1, hid2, hid3, hne2, hnp, hnLpage, hnLleaf, hnLslots, hnBpage, hnBslots,
           hnApage, hnAslots, hBnew, htakeNew, Ne.symm hne2, Ne.symm hpne2, Ne.symm hnp,
           ← hlB]
          try (split <;> rename_i hcc <;>
            first
            | simp [← hcc, hBnew, htakeNew, removeBranchAtS_pages_ne, insertBranchS_pages_ne,
                writeHeaderV_slots, hid1, hid2, hid3, hne2, Ne.symm hnp, Ne.symm hne2, hnBpage]
            | simp [hBnew, htakeNew, removeBranchAtS_pages_ne, insertBranchS_pages_ne,
                writeHeaderV_slots, hid1, hid2, hid3, hne2, Ne.symm hnp, Ne.symm hne2, hnBpage])))
  · simp only [if_neg hk] at h
    rcases hI : insertLeafS dbA newLeafA key value with ⟨dbB, newLeafB, idxB⟩
    rw [hI] at h
    dsimp only at h
    have hnL : newLeafB = { newLeafA with slotsTaken := newLeafA.slotsTaken + 1 } := by
      have t := insertLeafS_view dbA newLeafA key value
      rw [hI] at t
      exact t
    have hlB : liveSlots dbB newLeafB =
        rhalf.take (upperIdx key rhalf) ++ (key, value) :: rhalf.drop (upperIdx key rhalf) := by
      have t := insertLeafS_live dbA newLeafA key value
        (by rw [hnLpage, hnLslots, hslotsA, List.length_append, List.length_take,
              List.length_drop, hlen]
            omega)
      rw [hI] at t
      dsimp only at t
      rw [hliveL] at t
      exact t
    have hBnode : dbB.pages node.pageID = dbA.pages node.pageID := by
      have t := insertLeafS_pages_ne dbA newLeafA key value node.pageID
        (by rw [hnLpage]; exact hne2)
      rw [hI] at t
      exact t
    have hnLBpage : newLeafB.pageID = db.nextID := by rw [hnL]; exact hnLpage
    have hnLBslots : newLeafB.slotsTaken = (LeafNodeCap - LeafNodeCap / 2) + 1 := by
      rw [hnL]
      simp [hnLslots]
    have htakeA1 : ((dbA.pages node.pageID).slots).take (LeafNodeCap / 2) = lhalf := by
      rw [hdbApage, hlh, hlive]
    have htakeA2 : ((dbB.pages node.pageID).slots).take (LeafNodeCap / 2) = lhalf := by
      rw [hBnode, hdbApage, hlh, hlive]
    have htakeNewB : ((dbB.pages db.nextID).slots).take ((LeafNodeCap - LeafNodeCap / 2) + 1) =
        rhalf.take (upperIdx key rhalf) ++ (key, value) :: rhalf.drop (upperIdx key rhalf) := by
      have t := hlB
      rw [liveSlots, hnLBpage, hnLBslots] at t
      exact t
    split at h <;> split at h <;>
      (simp only [Prod.mk.injEq] at h
       obtain ⟨hdb2, hnode2, hparent2⟩ := h
       subst hdb2 hnode2 hparent2
       refine ⟨?_, fun hk2 => absurd (hmidmid ▸ hk2) hk,
         fun _ => ⟨?_, ?_, ?_, ?_⟩⟩ <;>
         (simp [liveSlots_writeHeaderV, writeHeaderV_slots, writeHeaderV, DB.setPage,
           liveSlots, insertBranchS_pages_ne, removeBranchAtS_pages_ne,
           insertBranchS_view, removeBranchAtS_view, readNodeV,
           hid1, hid2, hid3, hne2, hnp, hnL, hnLpage, hnLleaf, hnLslots,
           hnApage, hnAslots, hBnode, htakeA1, htakeA2, htakeNewB,
           Ne.symm hne2, Ne.symm hpne2, Ne.symm hnp]
          try (split <;> rename_i hcc <;>
            first
            | simp [← hcc, hBnode, htakeA1, htakeA2, htakeNewB, removeBranchAtS_pages_ne,
                insertBranchS_pages_ne, writeHeaderV_slots, hid1, hid2, hid3, hne2,
                Ne.symm hnp, Ne.symm hne2]
            | simp [hBnode, htakeA1, htakeA2, htakeNewB, removeBranchAtS_pages_ne,
                insertBranchS_pages_ne, writeHeaderV_slots, hid1, hid2, hid3, hne2,
                Ne.symm hnp, Ne.symm hne2])))

theorem claim_C3_branch_split (db : DB) (node : BTreeNode)
    (hbranch : node.isLeaf = false)
    (hfull : node.slotsTaken = BranchNodeCap)
    (hnode : node.pageID < db.nextID)
    (hlen : ((db.pages node.pageID).slots).length = BranchNodeCap) :
    ∀ db2 mid newID newNode node2,
      splitNodeS db node = (db2, mid, newID, newNode, node2) →
      mid = ((liveSlots db node).getD (BranchNodeCap / 2) (0, 0)).1 ∧
      newID = db.nextID ∧
      newNode.isLeaf = false ∧
      newNode.slotsTaken = BranchNodeCap - (BranchNodeCap / 2 + 1) ∧
      liveSlots db2 newNode = (liveSlots db node).drop (BranchNodeCap / 2 + 1) ∧
      newNode.next = node.next ∧
      node2.next = ((liveSlots db node).getD (BranchNodeCap / 2) (0, 0)).2 ∧
      node2.slotsTaken = BranchNodeCap / 2 ∧
      liveSlots db2 node2 = (liveSlots db node).take (BranchNodeCap / 2) := by
  intro db2 mid newID newNode node2 h
  have hne : node.pageID ≠ db.nextID := Nat.ne_of_lt hnode
  have hcap : BranchNodeCap = 510 := rfl
  rw [hcap] at hfull hlen ⊢
  have hs : (db.pages node.pageID).slots.take 510 = (db.pages node.pageID).slots := by
    rw [← hlen]
    exact List.take_length ..
  simp only [splitNodeS, allocateNode, copyFromS, writeHeaderV, DB.setPage,
    getSlot, truncateV, hbranch, Bool.false_eq_true, if_false, if_true,
    hne, ite_false, ite_true, hfull] at h
  norm_num at h
  obtain ⟨hdb, hmid, hnewID, hnn, hn2⟩ := h
  subst hdb hmid hnewID hnn hn2
  have hdrop : (List.drop 256 (db.pages node.pageID).slots).length = 254 := by
    simp [hlen]
  refine ⟨?_, rfl, rfl, by norm_num, ?_, rfl, ?_, by norm_num, ?_⟩
  · simp [liveSlots, hfull, hs, List.getD]
  · simp only [liveSlots, DB.setPage, hfull]
    norm_num [hne]
    rw [List.take_append_of_le_length]
    · rw [hs, List.take_take]
      norm_num
      exact le_of_eq hlen
    · rw [List.length_take]
      omega
  · simp [liveSlots, hfull, hs, List.getD]
  · simp only [liveSlots, DB.setPage, hfull]
    norm_num [hne]
    rw [hs]

/-- Witness for C3 at a concrete full branch page. -/
theorem claim_C3_branch_split_witness :
    (c3node.isLeaf = false ∧ c3node.slotsTaken = BranchNodeCap ∧
      c3node.pageID < c3db.nextID ∧
      ((c3db.pages c3node.pageID).slots).length = BranchNodeCap) ∧
    (splitNodeS c3db c3node).2.1 =
      ((liveSlots c3db c3node).getD (BranchNodeCap / 2) (0, 0)).1 :=
  ⟨⟨rfl, rfl, by decide, by decide⟩,
    (claim_C3_branch_split c3db c3node rfl rfl (by decide) (by decide)
      _ _ _ _ _ rfl).1⟩

/-- Witness for C2 at a concrete full sorted leaf with pending key 3. -/
theorem claim_C2_leaf_split_routing_witness :
    (c2node.isLeaf = true ∧ c2node.slotsTaken = LeafNodeCap ∧
      keysSorted (liveSlots c2db c2node) = true ∧
      c2parent.isLeaf = false ∧ c2node.pageID < c2db.nextID ∧
      c2parent.pageID < c2db.nextID ∧ c2parent.pageID ≠ c2node.pageID ∧
      ((c2db.pages c2node.pageID).slots).length = LeafNodeCap) ∧
    ((insertLeafOverflowS c2db c2node c2parent 3 77).1.pages c2db.nextID).hIsLeaf = true :=
  ⟨⟨rfl, rfl, by decide, rfl, by decide, by decide, by decide, by decide⟩,
    (claim_C2_leaf_split_routing c2db c2node c2parent 3 77 rfl rfl (by decide) rfl
      (by decide) (by decide) (by decide) (by decide) _ _ _ rfl _ _ _ rfl rfl rfl).1⟩

/-- C7 counterexample: on the fresh two-leaf tree, Search(0) yields a
cursor whose Get() is the sentinel (0, 0), but the first Forward() call
returns true (the cursor advances to the empty right leaf), not false as
the claim states. -/
theorem claim_C7_fresh_forward_returns_true :
    (SearchS freshTree.1 freshTree.2 0 12).map
        (fun c => (GetS freshTree.1 c, (ForwardS freshTree.1 c).2)) =
      some ((0, 0), true) ∧
    (SearchS freshTree.1 freshTree.2 0 12).map
        (fun c => (GetS freshTree.1 c, (ForwardS freshTree.1 c).2)) ≠
      some ((0, 0), false) := by
  constructor
  · rfl
  · decide

/-- C7 amended: on the fresh tree, Search(0) returns a cursor whose Get()
is the sentinel (0, 0); the first Forward() returns true, advancing into
the empty right leaf, and the second Forward() then returns false. -/
theorem claim_C7_fresh_search_sentinel :
    (SearchS freshTree.1 freshTree.2 0 12).map (fun c =>
        let f1 := ForwardS freshTree.1 c
        (GetS freshTree.1 c, f1.2, (ForwardS freshTree.1 f1.1).2)) =
      some ((0, 0), true, false) := by
  rfl

/-- Inserting the identical pair (5, 7) twice into a fresh tree leaves the
pair reachable at two distinct valid cursor positions: the cursor from
Search(5) and the cursor one Forward() step later both lie within their
leaf's live slots and both Get() to (5, 7), so the position at which the
just-inserted pair is found is not unique. -/
theorem insert_same_pair_twice_two_positions :
    (dupDemo.map (fun st =>
      (SearchS st.1 st.2 5 12).map (fun c =>
        let c1 := (ForwardS st.1 c).1
        (GetS st.1 c, decide (c.idx < c.node.slotsTaken),
          (ForwardS st.1 c).2, GetS st.1 c1,
          decide (c1.idx < c1.node.slotsTaken),
          decide ((c.node.pageID, c.idx) ≠ (c1.node.pageID, c1.idx)))))) =
      some (some ((5, 7), true, true, (5, 7), true, true)) := by
  rfl

end BT


end DumbDB
